import Mathlib

/-!
Shallow embedding of the parallel replicated-request orchestrator of the
gosdk repository: the `resty` package (parallel HTTP dispatch with retry,
result channel and the two reducers `Wait` and `First`) and the
collaborator quorum operations of `zboxcore/sdk/collaboratorworker.go`.

Machine-level HTTP is abstracted: the pluggable client (the `Client`
interface, `Do(req) (resp, err)`) becomes a stub function from the attempt
number to a pair of an optional response and an optional error, exactly the
two values the Go code inspects.  Concurrency is modelled by making each
posting site of the source an explicit list element: every `r.done <- x`
statement of the Go code contributes exactly one element to the list of
posted results, and the reducers consume the posted results in an arbitrary
arrival order (a `List Result` parameter).
-/

namespace resty

/-- Errors are abstract values; string identity is all the claims need. -/
abbrev Err := String

/-- Model of `*http.Response` as the retry loop and the result builder see
it: a status code and the bytes of the body.  `readErr` models whether
`ioutil.ReadAll(resp.Body)` fails for this response. -/
structure Response where
  statusCode : Nat
  body : List Nat
  readErr : Option Err := none
deriving Repr, DecidableEq

/-- The pair returned by one `r.client.Do(request)` call:
`resp, err = r.client.Do(request)`. -/
structure CallResult where
  resp : Option Response
  err : Option Err
deriving Repr, DecidableEq

/-- Observable trace of the retry loop of `Resty.httpDo`: how many attempts
were made, which backoff sleeps ran (pairs of the attempt number after which
the sleep ran and the slept seconds), and the final `resp` and `err`
variables when the loop broke. -/
structure LoopTrace where
  attempts : Nat
  sleeps : List (Nat × Nat)
  resp : Option Response
  err : Option Err
deriving Repr, DecidableEq

/-- Source line 159-162: a response counts as terminal success when its
status code is 200, 201, 202 or 204. -/
def isSuccessStatus (s : Nat) : Bool :=
  s == 200 || s == 201 || s == 202 || s == 204

/-- Source line 159: the break condition `resp != nil && (resp.StatusCode
== http.StatusOK || ...)`. -/
def attemptSuccess (a : CallResult) : Bool :=
  match a.resp with
  | some rp => isSuccessStatus rp.statusCode
  | none => false

/-- Source line 177: the backoff condition `resp != nil && resp.StatusCode
== http.StatusTooManyRequests`. -/
def attempt429 (a : CallResult) : Bool :=
  match a.resp with
  | some rp => rp.statusCode == 429
  | none => false

/-- The `for i := 1; ; i++` retry loop of `Resty.httpDo` (source lines
150-184), transcribed with an explicit fuel argument for structural
recursion.  The loop body in the source, in order: call the client; break
on success status; break when `i == r.retry`; sleep one second when a 429
was observed; continue with the next attempt.  Response-body closing and
the `GetBody` body replay (lines 151-155, 166-171, 181-183) have no effect
on the attempt count, the sleeps or the final `resp`/`err` and are not
traced.  The fuel-exhausted case coincides with the `i == retry` break on
every call whose fuel is at least `retry - i`, which all uses below
guarantee. -/
def httpDoGo (client : Nat → CallResult) (retry : Nat) : Nat → Nat → LoopTrace
  | i, 0 =>
    let a := client i
    { attempts := i, sleeps := [], resp := a.resp, err := a.err }
  | i, fuel + 1 =>
    let a := client i
    if attemptSuccess a then
      { attempts := i, sleeps := [], resp := a.resp, err := a.err }
    else if i == retry then
      { attempts := i, sleeps := [], resp := a.resp, err := a.err }
    else
      let rest := httpDoGo client retry (i + 1) fuel
      { attempts := rest.attempts,
        sleeps := (if attempt429 a then [(i, 1)] else []) ++ rest.sleeps,
        resp := rest.resp,
        err := rest.err }

/-- `Resty.httpDo` up to the end of the retry loop (source lines 148-187):
with `retry > 0` run the loop from attempt 1, otherwise execute exactly one
client call. -/
def httpDo (client : Nat → CallResult) (retry : Nat) : LoopTrace :=
  if 0 < retry then
    httpDoGo client retry 1 retry
  else
    let a := client 1
    { attempts := 1, sleeps := [], resp := a.resp, err := a.err }

/-- Model of the `Result` struct posted on the done channel; the request is
represented by its target URL. -/
structure Result where
  url : String
  resp : Option Response
  responseBody : List Nat
  err : Option Err
deriving Repr, DecidableEq

/-- Result construction after the loop (source lines 189-199): start from
`Result{Request, Response: resp, Err: err}`; when a response is present,
read its body — on a read error overwrite `Err` with the read error,
otherwise store the bytes in `ResponseBody`. -/
def mkResult (url : String) (t : LoopTrace) : Result :=
  match t.resp with
  | none => { url := url, resp := none, responseBody := [], err := t.err }
  | some rp =>
    match rp.readErr with
    | some e => { url := url, resp := some rp, responseBody := [], err := some e }
    | none => { url := url, resp := some rp, responseBody := rp.body, err := t.err }

/-- One dispatch target of `Resty.Do`: its URL, the outcome of
`http.NewRequest` for it (`buildErr`), the verdict the configured
interceptor would give for its request (`interceptErr`), and the stub
transport behaviour for its request, per attempt number. -/
structure Target where
  url : String
  buildErr : Option Err := none
  interceptErr : Option Err := none
  client : Nat → CallResult

/-- The `Resty` configuration the claims depend on: the retry limit,
whether `requestInterceptor` is nil, and the optional response handler
(`Resty.handle`).  The Go handler receives `(req, resp, respBody,
cancelFunc, err)`; it is modelled as a function of the posted `Result`
(the cancel function's effect is outside this embedding). -/
structure RestyM where
  retry : Nat
  hasInterceptor : Bool
  handle : Option (Result → Option Err) := none

/-- One posting to the done channel, tagged with the source site that posts
it: line 116 (`NewRequest` failed, posted inline), line 129 (interceptor
failed, posted inline), or line 200 (the spawned worker's single terminal
post, carrying the number of client calls the worker made). -/
inductive DispatchPost where
  | buildFailure (res : Result)
  | interceptFailure (res : Result)
  | worker (res : Result) (clientCalls : Nat)
deriving Repr, DecidableEq

/-- The result carried by a posting. -/
def DispatchPost.postResult : DispatchPost → Result
  | .buildFailure res => res
  | .interceptFailure res => res
  | .worker res _ => res

/-- Whether the posting came from a spawned worker goroutine. -/
def DispatchPost.spawned : DispatchPost → Bool
  | .buildFailure _ => false
  | .interceptFailure _ => false
  | .worker _ _ => true

/-- How many network calls (client calls) the posting's code path made. -/
def DispatchPost.networkCalls : DispatchPost → Nat
  | .buildFailure _ => 0
  | .interceptFailure _ => 0
  | .worker _ n => n

/-- The loop body of `Resty.Do` for one URL (source lines 112-135): if
`http.NewRequest` fails, post a failed result and continue; else if an
interceptor is configured and rejects the request, post a failed result and
continue; else spawn `httpDo` for the request, which posts its one terminal
result.  Each `r.done <- ...` of the source is one list element here. -/
def dispatchTarget (r : RestyM) (t : Target) : List DispatchPost :=
  match t.buildErr with
  | some e =>
    [DispatchPost.buildFailure { url := t.url, resp := none, responseBody := [], err := some e }]
  | none =>
    if r.hasInterceptor then
      match t.interceptErr with
      | some e =>
        [DispatchPost.interceptFailure { url := t.url, resp := none, responseBody := [], err := some e }]
      | none =>
        [DispatchPost.worker (mkResult t.url (httpDo t.client r.retry)) (httpDo t.client r.retry).attempts]
    else
      [DispatchPost.worker (mkResult t.url (httpDo t.client r.retry)) (httpDo t.client r.retry).attempts]

/-- `Resty.Do` over the whole URL list (source lines 104-138): the
multiset of postings to the buffered done channel of capacity `qty`. -/
def restyDo (r : RestyM) (targets : List Target) : List DispatchPost :=
  targets.flatMap (dispatchTarget r)

/-- The per-result judgement shared by `Wait` and `First` (source lines
234-244 and 280-295): with a handler, the handler's returned error; with no
handler, the result's own `Err` field. -/
def judgeResult (h : Option (Result → Option Err)) (res : Result) : Option Err :=
  match h with
  | some f => f res
  | none => res.err

/-- The receive loop of `Resty.Wait` (source lines 227-253) on the results
arriving on the channel, in arrival order: judge each result, accumulate
the non-nil errors, stop after `qty` results.  The cancellation branch of
the select is not taken in the runs the claims quantify over. -/
def waitRun (h : Option (Result → Option Err)) (qty : Nat) :
    List Result → List Err → Nat → List Err
  | [], errs, _ => errs
  | res :: rest, errs, done =>
    let errs2 :=
      match judgeResult h res with
      | some e => errs ++ [e]
      | none => errs
    if qty ≤ done + 1 then errs2 else waitRun h qty rest errs2 (done + 1)

/-- Observable outcome of `Resty.First`: the returned error list (`[]`
stands for the Go `nil` returned on acceptance), how many results were
consumed from the channel, and whether an acceptance caused the return. -/
structure FirstTrace where
  ret : List Err
  consumed : Nat
  accepted : Bool
deriving Repr, DecidableEq

/-- The receive loop of `Resty.First` (source lines 273-304): judge each
arriving result; on acceptance (nil judgement) return nil immediately;
otherwise accumulate the error and stop after `qty` results. -/
def firstRun (h : Option (Result → Option Err)) (qty : Nat) :
    List Result → List Err → Nat → FirstTrace
  | [], errs, done => { ret := errs, consumed := done, accepted := false }
  | res :: rest, errs, done =>
    match judgeResult h res with
    | none => { ret := [], consumed := done + 1, accepted := true }
    | some e =>
      if qty ≤ done + 1 then
        { ret := errs ++ [e], consumed := done + 1, accepted := false }
      else
        firstRun h qty rest (errs ++ [e]) (done + 1)

/-- Single-use body stream store: reading stream `sid` yields its remaining
content and leaves it drained, the semantics of an `io.Reader`. -/
def readAllStream (store : List (List Nat)) (sid : Nat) : List Nat × List (List Nat) :=
  (store.getD sid [], store.set sid [])

/-- Source lines 110-114: `var bodyReader io.Reader = body` is declared
once, outside the URL loop, and that same reader is handed to
`http.NewRequest` for every URL — every constructed request holds stream 0. -/
def doBodyStreams (urls : List String) : List Nat :=
  urls.map (fun _ => 0)

/-- The workers' body transmissions in one serialization: each request in
turn reads its body stream to exhaustion from the shared store. -/
def transmitAll : List Nat → List (List Nat) → List (List Nat)
  | [], _ => []
  | sid :: rest, store =>
    let rd := readAllStream store sid
    rd.1 :: transmitAll rest rd.2

/-- The body bytes each of the N requests of a `DoPost`/`DoPut` batch
actually carries, given the single shared reader of source line 110. -/
def doPostTransmitted (body : List Nat) (urls : List String) : List (List Nat) :=
  transmitAll (doBodyStreams urls) [body]

/-- A 429 (rate-limited) response with an empty body. -/
def resp429 : Response :=
  { statusCode := 429, body := [], readErr := none }

/-- A stub client that answers every attempt with HTTP 429. -/
def always429 : Nat → CallResult :=
  fun _ => { resp := some resp429, err := none }

/-- The error an HTTP client call returns once the batch context is done. -/
def ctxDoneErr : Err := "context deadline exceeded"

/-- A stub client modelling a batch whose deadline has been exceeded: every
call fails at once with the context error and no response. -/
def ctxDoneClient : Nat → CallResult :=
  fun _ => { resp := none, err := some ctxDoneErr }

/-- A stub client that fails with HTTP 500 on attempt 1 and succeeds with
HTTP 200 from attempt 2 on. -/
def failThenOk : Nat → CallResult :=
  fun j =>
    if j ≤ 1 then { resp := some { statusCode := 500, body := [], readErr := none }, err := none }
    else { resp := some { statusCode := 200, body := [5], readErr := none }, err := none }

/-- A stub client that answers every attempt with HTTP 500. -/
def always500 : Nat → CallResult :=
  fun _ => { resp := some { statusCode := 500, body := [], readErr := none }, err := none }

/-- A posted result whose transport failed: non-nil error, no response. -/
def resFail : Result :=
  { url := "a", resp := none, responseBody := [], err := some "boom" }

/-- A posted result with a non-2xx response but a nil transport error. -/
def resOk : Result :=
  { url := "b", resp := some { statusCode := 500, body := [], readErr := none },
    responseBody := [], err := none }

end resty

namespace sdk

/-- Modelled from the spec: the `Consensus` type used by
`CollaboratorRequest` is not under src/ (only its callers are).  The spec's
Quorum is the pair of an achieved count and a required threshold:
achievedCount is incremented once per accepting replica. -/
structure Consensus where
  consensus : Nat
  consensusThresh : Nat
deriving Repr, DecidableEq

/-- Modelled from the spec: feeding one acceptance into the Quorum
increments achievedCount. -/
def Consensus.Done (c : Consensus) : Consensus :=
  { c with consensus := c.consensus + 1 }

/-- Modelled from the spec: a quorum's decision is
achievedCount >= requiredThreshold. -/
def Consensus.isConsensusOk (c : Consensus) : Bool :=
  c.consensusThresh ≤ c.consensus

/-- What one replica's HTTP exchange comes to, as seen by the worker
goroutines of collaboratorworker.go: request construction failed
(`NewCollaboratorRequest` or `DeleteCollaboratorRequest` returned an
error), the HTTP call itself failed or timed out (the `HttpDo` callback ran
with a non-nil error), or a response with the given status code arrived. -/
inductive ReplicaOutcome where
  | buildErr
  | httpErr
  | status (code : Nat)
deriving Repr, DecidableEq

/-- What `updateCollaboratorToBlobber` (source lines 43-80) sends on
`rspCh`: nothing when request construction fails (the worker returns at
line 56 before any send), `false` when the callback sees an error,
`true` exactly for status 200 and `false` for every other status. -/
def workerPost : ReplicaOutcome → Option Bool
  | .buildErr => none
  | .httpErr => some false
  | .status code => some (code == 200)

/-- What `removeCollaboratorFromBlobber` (source lines 100-132) sends on
`rspCh`: the same mapping — return without a send on a construction error
(line 112), `false` on a callback error, `true` iff status 200. -/
def removeWorkerPost : ReplicaOutcome → Option Bool
  | .buildErr => none
  | .httpErr => some false
  | .status code => some (code == 200)

/-- `UpdateCollaboratorToBlobbers` (source lines 25-41): spawn one worker
per blobber, join them, then receive `numList` booleans from the buffered
channel `rspCh`, calling `consensus.Done()` for each `true`, and return
`isConsensusOk`.  The workers together send `replicas.filterMap workerPost`
on the channel; when fewer than `numList` values were sent the receive loop
at lines 34-39 blocks forever and the function never returns, modelled as
`none`. -/
def UpdateCollaboratorToBlobbers (thresh : Nat) (replicas : List ReplicaOutcome) : Option Bool :=
  let numList := replicas.length
  let posted := replicas.filterMap workerPost
  if numList ≤ posted.length then
    some ((posted.foldl (fun (c : Consensus) (b : Bool) => if b then c.Done else c)
      { consensus := 0, consensusThresh := thresh }).isConsensusOk)
  else
    none

/-- `RemoveCollaboratorFromBlobbers` (source lines 82-98): identical
structure over `removeCollaboratorFromBlobber` workers. -/
def RemoveCollaboratorFromBlobbers (thresh : Nat) (replicas : List ReplicaOutcome) : Option Bool :=
  let numList := replicas.length
  let posted := replicas.filterMap removeWorkerPost
  if numList ≤ posted.length then
    some ((posted.foldl (fun (c : Consensus) (b : Bool) => if b then c.Done else c)
      { consensus := 0, consensusThresh := thresh }).isConsensusOk)
  else
    none

/-- Scenario replicas: targets 1, 3 and 4 answer HTTP 200; targets 2 and 5
answer HTTP 500. -/
def replicas5a : List ReplicaOutcome :=
  [.status 200, .status 500, .status 200, .status 200, .status 500]

/-- Scenario replicas: only targets 1 and 3 answer HTTP 200. -/
def replicas5b : List ReplicaOutcome :=
  [.status 200, .status 500, .status 200, .status 500, .status 500]

end sdk

namespace resty

/-- Helper: the loop never reports fewer attempts than the attempt number it
started at. -/
theorem httpDoGo_attempts_ge (client : Nat → CallResult) (retry : Nat) :
    ∀ fuel i, i ≤ (httpDoGo client retry i fuel).attempts := by
  intro fuel
  induction fuel with
  | zero => intro i; simp [httpDoGo]
  | succ f ih =>
    intro i
    have h := ih (i + 1)
    simp only [httpDoGo]
    split
    · simp
    · split
      · simp
      · simpa using Nat.le_of_succ_le h

/-- Helper: when every attempt fails, the loop runs to the retry limit and
ends with the last attempt's response and error. -/
theorem httpDoGo_allFail (client : Nat → CallResult) (retry : Nat)
    (hfail : ∀ j, attemptSuccess (client j) = false) :
    ∀ fuel i, i ≤ retry → retry ≤ i + fuel →
      (httpDoGo client retry i fuel).attempts = retry ∧
      (httpDoGo client retry i fuel).resp = (client retry).resp ∧
      (httpDoGo client retry i fuel).err = (client retry).err := by
  intro fuel
  induction fuel with
  | zero =>
    intro i hle hge
    have : i = retry := by omega
    subst this
    simp [httpDoGo]
  | succ f ih =>
    intro i hle hge
    simp only [httpDoGo, hfail i, Bool.false_eq_true, if_false]
    by_cases hir : i = retry
    · simp [hir]
    · have hlt : i < retry := by omega
      have h := ih (i + 1) (by omega) (by omega)
      simp only [beq_iff_eq, hir, if_false]
      exact h

/-- Helper: when the attempts starting at `i` fail `k` times and attempt
`i + k` succeeds within the retry limit, the loop stops at attempt `i + k`
with that attempt's response and error. -/
theorem httpDoGo_succAt (client : Nat → CallResult) (retry : Nat) :
    ∀ k i fuel,
      (∀ j, i ≤ j → j < i + k → attemptSuccess (client j) = false) →
      attemptSuccess (client (i + k)) = true →
      i + k ≤ retry → retry ≤ i + fuel →
      (httpDoGo client retry i fuel).attempts = i + k ∧
      (httpDoGo client retry i fuel).resp = (client (i + k)).resp ∧
      (httpDoGo client retry i fuel).err = (client (i + k)).err := by
  intro k
  induction k with
  | zero =>
    intro i fuel _ hsucc _ _
    simp only [Nat.add_zero] at hsucc ⊢
    cases fuel with
    | zero => simp [httpDoGo]
    | succ f => simp [httpDoGo, hsucc]
  | succ k ih =>
    intro i fuel hfail hsucc hk hfuel
    have hfaili : attemptSuccess (client i) = false := hfail i (Nat.le_refl i) (by omega)
    cases fuel with
    | zero => omega
    | succ f =>
      have hidx : i + 1 + k = i + (k + 1) := by omega
      have h := ih (i + 1) f
        (fun j h1 h2 => hfail j (by omega) (by omega))
        (by rw [hidx]; exact hsucc)
        (by omega) (by omega)
      rw [hidx] at h
      have hir : ¬ i = retry := by omega
      simp only [httpDoGo, hfaili, Bool.false_eq_true, if_false, beq_iff_eq, hir]
      exact h

/-- Helper: the sleeps of a loop run are exactly the non-final attempts of
the run that observed a 429 response, each with the fixed one-second pause. -/
theorem httpDoGo_sleeps_eq (client : Nat → CallResult) (retry : Nat) :
    ∀ fuel i,
      (httpDoGo client retry i fuel).sleeps =
        ((List.range' i ((httpDoGo client retry i fuel).attempts - i)).filter
          (fun j => attempt429 (client j))).map (fun j => (j, 1)) := by
  intro fuel
  induction fuel with
  | zero => intro i; simp [httpDoGo]
  | succ f ih =>
    intro i
    have hge := httpDoGo_attempts_ge client retry f (i + 1)
    have h := ih (i + 1)
    simp only [httpDoGo]
    split
    · simp
    · split
      · simp
      · have hsub : (httpDoGo client retry (i + 1) f).attempts - i =
            ((httpDoGo client retry (i + 1) f).attempts - (i + 1)) + 1 := by omega
        simp only [hsub, List.range'_succ, List.filter_cons]
        by_cases h429 : attempt429 (client i) = true
        · simp [h429, h]
        · simp only [Bool.not_eq_true] at h429
          simp [h429, h]

end resty

namespace resty

/-- Helper: every branch of the per-URL dispatch posts exactly one result. -/
theorem dispatchTarget_length_one (r : RestyM) (t : Target) :
    (dispatchTarget r t).length = 1 := by
  unfold dispatchTarget
  cases t.buildErr with
  | some e => rfl
  | none =>
    cases hint : r.hasInterceptor with
    | false => simp
    | true =>
      cases t.interceptErr with
      | some e => simp
      | none => simp

/-- Claim C1: for every batch dispatched via Do with N target URLs, exactly
one Result is posted to the done channel per target — one from the inline
construction/interception failure paths and one from each worker's terminal
outcome — never zero and never more than one, so a reducer that drains
fully consumes exactly N results. -/
theorem one_result_posted_per_target :
    (∀ (r : RestyM) (t : Target), (dispatchTarget r t).length = 1) ∧
    (∀ (r : RestyM) (targets : List Target),
      (restyDo r targets).length = targets.length) := by
  refine ⟨dispatchTarget_length_one, ?_⟩
  intro r targets
  induction targets with
  | nil => rfl
  | cons t ts ih =>
    simp only [restyDo, List.flatMap_cons, List.length_append, List.length_cons] at *
    rw [dispatchTarget_length_one r t, ih]
    omega

/-- Claim C9: a target whose request construction fails, or whose
configured interceptor rejects it, gets one failed result posted inline —
no worker goroutine, zero client calls — carrying that error, and the
remaining targets of the batch are still all dispatched. -/
theorem bad_target_failed_inline_batch_continues :
    (∀ (r : RestyM) (t : Target) (e : Err), t.buildErr = some e →
      (dispatchTarget r t).map DispatchPost.spawned = [false] ∧
      (dispatchTarget r t).map DispatchPost.networkCalls = [0] ∧
      (dispatchTarget r t).map DispatchPost.postResult =
        [{ url := t.url, resp := none, responseBody := [], err := some e }]) ∧
    (∀ (r : RestyM) (t : Target) (e : Err),
      t.buildErr = none → r.hasInterceptor = true → t.interceptErr = some e →
      (dispatchTarget r t).map DispatchPost.spawned = [false] ∧
      (dispatchTarget r t).map DispatchPost.networkCalls = [0] ∧
      (dispatchTarget r t).map DispatchPost.postResult =
        [{ url := t.url, resp := none, responseBody := [], err := some e }]) ∧
    (∀ (r : RestyM) (ts1 ts2 : List Target) (t : Target),
      restyDo r (ts1 ++ t :: ts2) =
        restyDo r ts1 ++ dispatchTarget r t ++ restyDo r ts2) := by
  refine ⟨?_, ?_, ?_⟩
  · intro r t e hb
    unfold dispatchTarget
    rw [hb]
    exact ⟨rfl, rfl, rfl⟩
  · intro r t e hb hint hi
    unfold dispatchTarget
    rw [hb, hint, hi]
    exact ⟨rfl, rfl, rfl⟩
  · intro r ts1 ts2 t
    simp [restyDo, List.flatMap_append, List.flatMap_cons, List.append_assoc]

/-- Claim C9 witness: a concrete bad-URL target and a concrete
interceptor-rejected target in a three-target batch. -/
theorem bad_target_failed_inline_batch_continues_witness :
    ((Target.mk "u1" (some "bad url") none always429).buildErr = some "bad url" ∧
      (dispatchTarget ⟨3, false, none⟩ ⟨"u1", some "bad url", none, always429⟩).map
        DispatchPost.spawned = [false] ∧
      (dispatchTarget ⟨3, false, none⟩ ⟨"u1", some "bad url", none, always429⟩).map
        DispatchPost.networkCalls = [0]) ∧
    ((Target.mk "u2" none (some "rejected") always429).buildErr = none ∧
      (dispatchTarget ⟨3, true, none⟩ ⟨"u2", none, some "rejected", always429⟩).map
        DispatchPost.postResult =
        [{ url := "u2", resp := none, responseBody := [], err := some "rejected" }]) := by
  have h1 := bad_target_failed_inline_batch_continues.1 ⟨3, false, none⟩
    ⟨"u1", some "bad url", none, always429⟩ "bad url" rfl
  have h2 := bad_target_failed_inline_batch_continues.2.1 ⟨3, true, none⟩
    ⟨"u2", none, some "rejected", always429⟩ "rejected" rfl rfl rfl
  exact ⟨⟨rfl, h1.1, h1.2.1⟩, ⟨rfl, h2.2.2⟩⟩

/-- Claim C6: with retry limit r at least 1, a stub client failing the
first k attempts (error or non-success status) and succeeding at attempt
k+1 with k+1 within the limit makes the executor stop after exactly k+1
attempts carrying the successful call's response; an always-failing stub
makes it perform exactly r attempts and carry the last call's failure. -/
theorem retry_attempt_counts :
    (∀ (client : Nat → CallResult) (r k : Nat),
      1 ≤ r → k + 1 ≤ r →
      (∀ j, 1 ≤ j → j ≤ k → attemptSuccess (client j) = false) →
      attemptSuccess (client (k + 1)) = true →
      (httpDo client r).attempts = k + 1 ∧
      (httpDo client r).resp = (client (k + 1)).resp ∧
      (httpDo client r).err = (client (k + 1)).err) ∧
    (∀ (client : Nat → CallResult) (r : Nat),
      1 ≤ r →
      (∀ j, attemptSuccess (client j) = false) →
      (httpDo client r).attempts = r ∧
      (httpDo client r).resp = (client r).resp ∧
      (httpDo client r).err = (client r).err) := by
  constructor
  · intro client r k hr hkr hfail hsucc
    have hck : 1 + k = k + 1 := by omega
    have h := httpDoGo_succAt client r k 1 r
      (fun j h1 h2 => hfail j h1 (by omega))
      (by rw [hck]; exact hsucc)
      (by omega) (by omega)
    rw [hck] at h
    simpa [httpDo, show 0 < r by omega] using h
  · intro client r hr hfail
    have h := httpDoGo_allFail client r hfail r 1 hr (by omega)
    simpa [httpDo, show 0 < r by omega] using h

/-- Claim C6 witness: with retry limit 3 the one-failure stub takes exactly
2 attempts and carries the 200 response; the always-500 stub takes exactly
3 attempts and carries its last 500 response. -/
theorem retry_attempt_counts_witness :
    ((1 : Nat) ≤ 3 ∧ 1 + 1 ≤ 3 ∧ attemptSuccess (failThenOk 2) = true ∧
      (httpDo failThenOk 3).attempts = 2 ∧
      (httpDo failThenOk 3).resp = (failThenOk 2).resp) ∧
    ((∀ j, attemptSuccess (always500 j) = false) ∧
      (httpDo always500 3).attempts = 3 ∧
      (httpDo always500 3).resp = (always500 3).resp ∧
      (httpDo always500 3).err = (always500 3).err) := by
  have h1 := retry_attempt_counts.1 failThenOk 3 1 (by decide) (by decide)
    (fun j hj1 hj2 => by
      have hj : j = 1 := by omega
      rw [hj]; rfl)
    (by decide)
  have h2 := retry_attempt_counts.2 always500 3 (by decide) (fun j => rfl)
  exact ⟨⟨by decide, by decide, by decide, h1.1, h1.2.1⟩,
    ⟨fun j => rfl, h2.1, h2.2.1, h2.2.2⟩⟩

end resty

namespace resty

/-- Claim C7: the backoff sleep runs exactly after the non-final attempts
of the run that observed HTTP 429, always for the same fixed one-second
pause; concretely, with retry limit 3 and an always-429 client there are
exactly 3 attempts, one sleep after attempt 1 and one after attempt 2,
none after attempt 3, and the final outcome carries the last 429 response. -/
theorem fixed_backoff_sleep_on_429 :
    (∀ (client : Nat → CallResult) (r : Nat), 1 ≤ r →
      (httpDo client r).sleeps =
        ((List.range' 1 ((httpDo client r).attempts - 1)).filter
          (fun j => attempt429 (client j))).map (fun j => (j, 1))) ∧
    ((httpDo always429 3).attempts = 3 ∧
      (httpDo always429 3).sleeps = [(1, 1), (2, 1)] ∧
      (httpDo always429 3).resp = some resp429 ∧
      (mkResult "u" (httpDo always429 3)).resp = some resp429) := by
  constructor
  · intro client r hr
    simp only [httpDo, if_pos (show 0 < r by omega)]
    exact httpDoGo_sleeps_eq client r r 1
  · refine ⟨by decide, by decide, by decide, by decide⟩

/-- Claim C7 witness: the general sleep characterization instantiated at
the always-429 stub with retry limit 3. -/
theorem fixed_backoff_sleep_on_429_witness :
    (1 : Nat) ≤ 3 ∧
    (httpDo always429 3).sleeps =
      ((List.range' 1 ((httpDo always429 3).attempts - 1)).filter
        (fun j => attempt429 (always429 j))).map (fun j => (j, 1)) :=
  ⟨by decide, fixed_backoff_sleep_on_429.1 always429 3 (by decide)⟩

/-- Claim C3 counterexample: with retry limit 2 and a client whose every
call fails immediately with the context-done error, the first client call
that fails because the context is done is attempt 1, yet the executor still
makes a second attempt — the first context-done failure is not the last
attempt, contrary to the claim. -/
theorem retry_continues_after_deadline_cex :
    attemptSuccess (ctxDoneClient 1) = false ∧
    (ctxDoneClient 1).err = some ctxDoneErr ∧
    (httpDo ctxDoneClient 2).attempts = 2 ∧
    ¬ (httpDo ctxDoneClient 2).attempts = 1 := by
  refine ⟨rfl, rfl, by decide, by decide⟩

/-- Claim C3 as amended: once the context is done every client call fails
immediately with the context error, so no successful response can be
obtained; the executor nevertheless continues through all remaining
attempts up to the retry limit, and the deadline error surfaces as the
Error field of the final outcome. -/
theorem deadline_error_surfaces_after_full_retries :
    ∀ (client : Nat → CallResult) (r j0 : Nat) (e : Err),
      1 ≤ r → 1 ≤ j0 → j0 ≤ r →
      (∀ j, j < j0 → attemptSuccess (client j) = false) →
      (∀ j, j0 ≤ j → client j = { resp := none, err := some e }) →
      (httpDo client r).attempts = r ∧
      (httpDo client r).resp = none ∧
      (httpDo client r).err = some e := by
  intro client r j0 e hr hj0 hj0r hbefore hafter
  have hfail : ∀ j, attemptSuccess (client j) = false := by
    intro j
    by_cases h : j < j0
    · exact hbefore j h
    · rw [hafter j (by omega)]
      rfl
  have h := httpDoGo_allFail client r hfail r 1 hr (by omega)
  have hcr := hafter r (by omega)
  rw [hcr] at h
  simpa [httpDo, show 0 < r by omega] using h

/-- Claim C3 amended-claim witness: the context-done stub with retry limit
2 makes both attempts and surfaces the context error. -/
theorem deadline_error_surfaces_after_full_retries_witness :
    (1 : Nat) ≤ 2 ∧ (1 : Nat) ≤ 1 ∧ (1 : Nat) ≤ 2 ∧
    (httpDo ctxDoneClient 2).attempts = 2 ∧
    (httpDo ctxDoneClient 2).resp = none ∧
    (httpDo ctxDoneClient 2).err = some ctxDoneErr := by
  have h := deadline_error_surfaces_after_full_retries ctxDoneClient 2 1 ctxDoneErr
    (by decide) (by decide) (by decide)
    (fun j hj => rfl)
    (fun j hj => rfl)
  exact ⟨by decide, by decide, by decide, h.1, h.2.1, h.2.2⟩

/-- Claim C5, evaluated at the failing input: a DoPost batch with body
bytes [7] and two target URLs hands the single shared body reader to both
constructed requests, so the first executed request transmits the full
body and the second transmits nothing — not every request carries the
complete body content. -/
theorem doPost_shares_single_body_stream :
    doBodyStreams ["u1", "u2"] = [0, 0] ∧
    doPostTransmitted [7] ["u1", "u2"] = [[7], []] ∧
    ¬ doPostTransmitted [7] ["u1", "u2"] = [[7], [7]] := by
  refine ⟨rfl, by decide, by decide⟩

end resty

namespace resty

/-- Helper: while every received result is rejected and the quantity is not
yet reached, the First loop just accumulates the judged errors and moves on. -/
theorem firstRun_skips_rejected (h : Option (Result → Option Err)) (qty : Nat) :
    ∀ (pre rest : List Result) (errs : List Err) (done : Nat),
      (∀ x ∈ pre, (judgeResult h x).isSome = true) →
      done + pre.length < qty →
      firstRun h qty (pre ++ rest) errs done =
        firstRun h qty rest (errs ++ pre.filterMap (judgeResult h)) (done + pre.length) := by
  intro pre
  induction pre with
  | nil =>
    intro rest errs done _ _
    simp
  | cons x pre ih =>
    intro rest errs done hall hlt
    obtain ⟨e, he⟩ := Option.isSome_iff_exists.mp (hall x (List.mem_cons_self x pre))
    simp only [List.length_cons] at hlt
    simp only [List.cons_append, firstRun, he, List.append_eq]
    rw [if_neg (by omega)]
    rw [ih rest (errs ++ [e]) (done + 1)
      (fun y hy => hall y (List.mem_cons_of_mem x hy)) (by omega)]
    have hn : done + 1 + pre.length = done + (pre.length + 1) := by omega
    rw [hn]
    simp [List.filterMap_cons, he]

/-- Helper: when every one of the results is rejected and exactly fills the
quantity, the First loop consumes them all and returns all judged errors. -/
theorem firstRun_all_rejected (h : Option (Result → Option Err)) :
    ∀ (l : List Result) (errs : List Err) (done qty : Nat),
      (∀ x ∈ l, (judgeResult h x).isSome = true) →
      qty = done + l.length →
      firstRun h qty l errs done =
        { ret := errs ++ l.filterMap (judgeResult h), consumed := qty, accepted := false } := by
  intro l
  induction l with
  | nil =>
    intro errs done qty _ hq
    simp only [List.length_nil, Nat.add_zero] at hq
    simp [firstRun, hq]
  | cons x rest ih =>
    intro errs done qty hall hq
    obtain ⟨e, he⟩ := Option.isSome_iff_exists.mp (hall x (List.mem_cons_self x rest))
    simp only [List.length_cons] at hq
    simp only [firstRun, he, List.filterMap_cons]
    by_cases hrest : rest = []
    · subst hrest
      have hq1 : qty = done + 1 := by simpa using hq
      rw [if_pos (by omega)]
      simp [hq1]
    · have hpos : 0 < rest.length := List.length_pos.mpr hrest
      rw [if_neg (by omega)]
      rw [ih (errs ++ [e]) (done + 1) qty
        (fun z hz => hall z (List.mem_cons_of_mem x hz)) (by omega)]
      simp

/-- Helper: the Wait loop over exactly `qty` arriving results returns the
accumulated errors plus every judged error, in arrival order. -/
theorem waitRun_eq_filterMap (h : Option (Result → Option Err)) :
    ∀ (l : List Result) (errs : List Err) (done qty : Nat),
      qty = done + l.length →
      waitRun h qty l errs done = errs ++ l.filterMap (judgeResult h) := by
  intro l
  induction l with
  | nil =>
    intro errs done qty _
    simp [waitRun]
  | cons x rest ih =>
    intro errs done qty hq
    simp only [List.length_cons] at hq
    by_cases hrest : rest = []
    · subst hrest
      have hq1 : qty = done + 1 := by simpa using hq
      cases hjx : judgeResult h x with
      | none =>
        simp only [waitRun, hjx]
        rw [if_pos (by omega)]
        simp [List.filterMap_cons, hjx]
      | some e =>
        simp only [waitRun, hjx]
        rw [if_pos (by omega)]
        simp [List.filterMap_cons, hjx]
    · have hpos : 0 < rest.length := List.length_pos.mpr hrest
      cases hjx : judgeResult h x with
      | none =>
        simp only [waitRun, hjx]
        rw [if_neg (by omega)]
        rw [ih errs (done + 1) qty (by omega)]
        simp [List.filterMap_cons, hjx]
      | some e =>
        simp only [waitRun, hjx]
        rw [if_neg (by omega)]
        rw [ih (errs ++ [e]) (done + 1) qty (by omega)]
        simp [List.filterMap_cons, hjx]

end resty

namespace resty

/-- Claim C8: First returns nil the moment the configured handler accepts
one result (with no handler, the moment a result with a nil error arrives),
consuming only the results up to and including the accepted one and leaving
the rest pending, whatever they are; and when every one of the qty results
is rejected, First returns the accumulated list of all per-target errors. -/
theorem first_accepts_early_or_accumulates_all :
    (∀ (h : Option (Result → Option Err)) (pre rest : List Result) (a : Result),
      (∀ x ∈ pre, (judgeResult h x).isSome = true) →
      judgeResult h a = none →
      firstRun h (pre ++ a :: rest).length (pre ++ a :: rest) [] 0 =
        { ret := [], consumed := pre.length + 1, accepted := true }) ∧
    (∀ (h : Option (Result → Option Err)) (l : List Result),
      (∀ x ∈ l, (judgeResult h x).isSome = true) →
      firstRun h l.length l [] 0 =
        { ret := l.filterMap (judgeResult h), consumed := l.length, accepted := false }) := by
  constructor
  · intro h pre rest a hall hacc
    rw [firstRun_skips_rejected h (pre ++ a :: rest).length pre (a :: rest) [] 0 hall
      (by simp)]
    simp [firstRun, hacc]
  · intro h l hall
    rw [firstRun_all_rejected h l [] 0 l.length hall (by omega)]
    simp

/-- Claim C8 witness: with no handler, a batch of three results whose
second has a nil error returns nil after consuming two results; a batch of
two failed results returns both errors. -/
theorem first_accepts_early_or_accumulates_all_witness :
    ((∀ x ∈ [resFail], (judgeResult none x).isSome = true) ∧
      judgeResult none resOk = none ∧
      firstRun none 3 [resFail, resOk, resFail] [] 0 =
        { ret := [], consumed := 2, accepted := true }) ∧
    ((∀ x ∈ [resFail, resFail], (judgeResult none x).isSome = true) ∧
      firstRun none 2 [resFail, resFail] [] 0 =
        { ret := ["boom", "boom"], consumed := 2, accepted := false }) := by
  have h1 := first_accepts_early_or_accumulates_all.1 none [resFail] [resFail] resOk
    (by decide) rfl
  have h2 := first_accepts_early_or_accumulates_all.2 none [resFail, resFail]
    (by decide)
  refine ⟨⟨by decide, rfl, ?_⟩, ⟨by decide, ?_⟩⟩
  · simpa using h1
  · simpa using h2

/-- Claim C10: with no handler configured, both Wait and First judge a
result solely by its Error field, ignoring the HTTP status: Wait returns
exactly the non-nil Error fields of the arriving results, and First returns
nil immediately on the first arriving result whose Error is nil, whatever
its response was. -/
theorem no_handler_judges_by_err_only :
    (∀ (l : List Result),
      waitRun none l.length l [] 0 = l.filterMap Result.err) ∧
    (∀ (qty : Nat) (res : Result) (rest : List Result),
      res.err = none →
      firstRun none qty (res :: rest) [] 0 =
        { ret := [], consumed := 1, accepted := true }) := by
  constructor
  · intro l
    have h := waitRun_eq_filterMap none l [] 0 l.length (by omega)
    simpa using h
  · intro qty res rest hres
    simp [firstRun, judgeResult, hres]

/-- Claim C10 witness: a result holding an HTTP 500 response but a nil
error contributes no error to Wait and makes First return nil at once. -/
theorem no_handler_judges_by_err_only_witness :
    resOk.err = none ∧
    waitRun none 1 [resOk] [] 0 = [] ∧
    firstRun none 2 (resOk :: [resFail]) [] 0 =
      { ret := [], consumed := 1, accepted := true } := by
  have h1 := no_handler_judges_by_err_only.1 [resOk]
  have h2 := no_handler_judges_by_err_only.2 2 resOk [resFail] rfl
  exact ⟨rfl, by simpa using h1, h2⟩

end resty

namespace sdk

/-- Helper: folding the received booleans through `consensus.Done()` counts
the acceptances on top of the starting count and keeps the threshold. -/
theorem consensusFold_count :
    ∀ (l : List Bool) (c : Consensus),
      l.foldl (fun (c : Consensus) (b : Bool) => if b then c.Done else c) c =
        { consensus := c.consensus + l.count true, consensusThresh := c.consensusThresh } := by
  intro l
  induction l with
  | nil => intro c; simp
  | cons b l ih =>
    intro c
    cases b with
    | false =>
      simp only [List.foldl_cons, Bool.false_eq_true, if_false]
      rw [ih c]
      simp [List.count_cons]
    | true =>
      simp only [List.foldl_cons, if_true]
      rw [ih c.Done]
      simp only [Consensus.Done, Consensus.mk.injEq, List.count_cons]
      refine ⟨by simp; omega, by simp⟩

/-- Claim C2: when every one of the M replicas posts its boolean to the
response channel, UpdateCollaboratorToBlobbers returns exactly the verdict
of comparing the number A of accepting replicas (those that posted true,
i.e. answered HTTP 200) against the required threshold: some true iff
A is at least the threshold. -/
theorem updateCollaborator_quorum_iff :
    ∀ (thresh : Nat) (replicas : List ReplicaOutcome),
      (replicas.filterMap workerPost).length = replicas.length →
      UpdateCollaboratorToBlobbers thresh replicas =
        some (decide (thresh ≤ (replicas.filterMap workerPost).count true)) := by
  intro thresh replicas hall
  unfold UpdateCollaboratorToBlobbers
  rw [if_pos (Nat.le_of_eq hall.symm)]
  rw [consensusFold_count]
  simp [Consensus.isConsensusOk]

/-- Claim C2 witness: five replicas with threshold 3 — three HTTP-200
answers give some true, two HTTP-200 answers give some false. -/
theorem updateCollaborator_quorum_iff_witness :
    (replicas5a.filterMap workerPost).length = replicas5a.length ∧
    UpdateCollaboratorToBlobbers 3 replicas5a = some true ∧
    (replicas5b.filterMap workerPost).length = replicas5b.length ∧
    UpdateCollaboratorToBlobbers 3 replicas5b = some false := by
  refine ⟨by decide, ?_, by decide, ?_⟩
  · rw [updateCollaborator_quorum_iff 3 replicas5a (by decide)]
    decide
  · rw [updateCollaborator_quorum_iff 3 replicas5b (by decide)]
    decide

/-- Claim C4, evaluated at the failing input: a replica whose HTTP call
errors or times out posts false and the operation still returns its boolean
verdict (some true below), but a replica whose request construction fails
posts nothing, so the receive loop waits for more values than were ever
sent and neither UpdateCollaboratorToBlobbers nor
RemoveCollaboratorFromBlobbers returns (none below models the permanent
block). -/
theorem buildError_blocks_collaborator_ops :
    UpdateCollaboratorToBlobbers 1 [ReplicaOutcome.buildErr, ReplicaOutcome.status 200] = none ∧
    RemoveCollaboratorFromBlobbers 1 [ReplicaOutcome.buildErr, ReplicaOutcome.status 200] = none ∧
    UpdateCollaboratorToBlobbers 1 [ReplicaOutcome.httpErr, ReplicaOutcome.status 200] = some true ∧
    RemoveCollaboratorFromBlobbers 1 [ReplicaOutcome.httpErr, ReplicaOutcome.status 200] = some true := by
  refine ⟨by decide, by decide, by decide, by decide⟩

end sdk
